import Mathlib

/-!
Verification of the tabular preprocessor of this repository
(the `preprocessing.py` script embedded in the notebook).

The script loads a CSV into a pandas DataFrame, normalizes string values
(`df.replace(regex=r'\.', value='_')` then `df.replace(regex=r'\_$', value='')`),
derives two indicator columns (`no_previous_contact`, `not_working`), drops six
columns, one-hot encodes the categorical columns (`pd.get_dummies(df)`),
shuffles with a fixed seed and splits 70/20/10
(`np.split(df.sample(frac=1, random_state=42), [int(0.7*len(df)), int(0.9*len(df))])`),
and writes four CSV files.

The embedding below models a DataFrame as a list of column names plus rows of
values, where a value is either a string or an integer (the two dtypes the
script manipulates).  Fallible pandas operations (column lookup, `drop`,
writing into a missing directory) return `Except`.  The seeded shuffle
(numpy MT19937 inside `df.sample`) is modelled as an explicit function
from the row count to a permutation of row indices, passed as a parameter.
-/

set_option maxRecDepth 100000

namespace BankPrep

/-- A cell value: pandas object (string) dtype or numeric dtype. -/
inductive Value where
  | str : String → Value
  | num : Int → Value
deriving DecidableEq, Repr

/-- `true` on string-typed values; models pandas object dtype detection. -/
def Value.isStr : Value → Bool
  | .str _ => true
  | .num _ => false

/-- A DataFrame: column names in order, and rows of values aligned with them. -/
structure DataFrame where
  cols : List String
  rows : List (List Value)
deriving DecidableEq, Repr

/-- Well-formed frame: every row has exactly one entry per column. -/
def Wf (df : DataFrame) : Prop :=
  ∀ r ∈ df.rows, r.length = df.cols.length

/-- `re.sub(r'\.', '_', s)`: replace every literal dot by an underscore. -/
def replaceDots (s : String) : String :=
  String.mk (s.data.map (fun c => if c = '.' then '_' else c))

/-- `re.sub(r'\_$', '', s)`: strip a single trailing underscore if present. -/
def stripTrailingUnderscore (s : String) : String :=
  if s.data.getLast? = some '_' then String.mk s.data.dropLast else s

/-- First `df.replace` pass, per value: regex replacement only touches strings. -/
def valueReplaceDots : Value → Value
  | .str s => .str (replaceDots s)
  | .num n => .num n

/-- Second `df.replace` pass, per value. -/
def valueStripTrailing : Value → Value
  | .str s => .str (stripTrailingUnderscore s)
  | .num n => .num n

/-- `df.replace(regex=..., value=...)`: applies a value transformation to every
cell of the frame; pandas leaves the column labels untouched. -/
def replaceValues (f : Value → Value) (df : DataFrame) : DataFrame :=
  ⟨df.cols, df.rows.map (List.map f)⟩

/-- The two normalization passes of the script, in order. -/
def normalizeDF (df : DataFrame) : DataFrame :=
  replaceValues valueStripTrailing (replaceValues valueReplaceDots df)

/-- Index of a column label in the header, leftmost match. -/
def colIdx? : List String → String → Option Nat
  | [], _ => none
  | c :: cs, t => if c = t then some 0 else (colIdx? cs t).map (· + 1)

/-- `df[c]`: column selection; a missing label raises `KeyError`. -/
def getCol (df : DataFrame) (c : String) : Except String (List Value) :=
  match colIdx? df.cols c with
  | none => .error ("KeyError: " ++ c)
  | some i => .ok (df.rows.map (fun r => r.getD i (.num 0)))

/-- `df[c] = vals`: overwrite an existing column in place, or append a new
column at the right end of the frame. -/
def setCol (df : DataFrame) (c : String) (vals : List Value) : DataFrame :=
  match colIdx? df.cols c with
  | none => ⟨df.cols ++ [c], (df.rows.zip vals).map (fun p => p.1 ++ [p.2])⟩
  | some i => ⟨df.cols, (df.rows.zip vals).map (fun p => p.1.set i p.2)⟩

/-- `(df["pdays"] == 999).astype(int)`, per value. -/
def noPrevContactVal (v : Value) : Value :=
  .num (if v = .num 999 then 1 else 0)

/-- `df["job"].isin(["student", "retired", "unemployed"]).astype(int)`, per value. -/
def notWorkingVal (v : Value) : Value :=
  .num (match v with
        | .str s => if s = "student" ∨ s = "retired" ∨ s = "unemployed" then 1 else 0
        | .num _ => 0)

/-- The two indicator-derivation assignments of the script, in order. -/
def addIndicators (df : DataFrame) : Except String DataFrame := do
  let pdays ← getCol df "pdays"
  let df1 := setCol df "no_previous_contact" (pdays.map noPrevContactVal)
  let jobs ← getCol df1 "job"
  return setCol df1 "not_working" (jobs.map notWorkingVal)

/-- Row projection used by `drop`: keep the entries whose column survives. -/
def dropRow (cols : List String) (names : List String) (r : List Value) : List Value :=
  ((cols.zip r).filter (fun p => !(names.contains p.1))).map Prod.snd

/-- `df.drop(names, axis=1)`: errors (KeyError) if any label is absent. -/
def dropCols (names : List String) (df : DataFrame) : Except String DataFrame :=
  if names.all (fun n => df.cols.contains n) then
    .ok ⟨df.cols.filter (fun c => !(names.contains c)), df.rows.map (dropRow df.cols names)⟩
  else .error "KeyError: drop"

/-- Values of column `i` down the frame. -/
def colValues (df : DataFrame) (i : Nat) : List Value :=
  df.rows.map (fun r => r.getD i (.num 0))

/-- A column is categorical (object dtype) when it holds string data. -/
def isCatCol (df : DataFrame) (i : Nat) : Bool :=
  (colValues df i).any Value.isStr

/-- Insert into a ≤-sorted list of strings. -/
def insertStr (s : String) : List String → List String
  | [] => [s]
  | t :: ts => if s ≤ t then s :: t :: ts else t :: insertStr s ts

/-- Sort strings ascending (pandas sorts the observed categories). -/
def sortStrs (l : List String) : List String := l.foldr insertStr []

/-- String contents of a column. -/
def strValues (vs : List Value) : List String :=
  vs.filterMap (fun v => match v with | .str s => some s | .num _ => none)

/-- The distinct observed categories of a column, ascending. -/
def categories (vs : List Value) : List String :=
  sortStrs (strValues vs).dedup

/-- `pd.get_dummies` names an indicator column `column_value`. -/
def dummyName (c v : String) : String := c ++ "_" ++ v

/-- `pd.get_dummies(df)`: keep the non-categorical columns in order, then
append one 0/1 indicator column per observed category of each categorical
column, categories ascending within a column. -/
def getDummies (df : DataFrame) : DataFrame :=
  let n := df.cols.length
  let keptIdx := (List.range n).filter (fun i => !(isCatCol df i))
  let catIdx := (List.range n).filter (fun i => isCatCol df i)
  ⟨keptIdx.map (fun i => df.cols.getD i "") ++
     catIdx.flatMap (fun i => (categories (colValues df i)).map (dummyName (df.cols.getD i ""))),
   df.rows.map (fun r =>
     keptIdx.map (fun i => r.getD i (.num 0)) ++
       catIdx.flatMap (fun i => (categories (colValues df i)).map
         (fun cat => Value.num (if r.getD i (.num 0) = .str cat then 1 else 0))))⟩

/-- `df.sample(frac=1, random_state=42)`: reorder the rows by the seeded
permutation; `sample` stands for the seeded numpy index permutation, as a
function of the row count. -/
def applySample (sample : Nat → List Nat) (df : DataFrame) : DataFrame :=
  ⟨df.cols, (sample df.rows.length).map (fun i => df.rows.getD i [])⟩

/-- Bit length with explicit fuel (fuel ≥ n suffices), so that the kernel can
evaluate it on large literals. -/
def bitlenAux : Nat → Nat → Nat
  | 0, _ => 0
  | fuel + 1, n => if n = 0 then 0 else bitlenAux fuel (n / 2) + 1

/-- Number of binary digits of n (0 for 0). -/
def bitlen (n : Nat) : Nat := bitlenAux n n

/-- Round n / 2^k to the nearest integer, ties to even (the IEEE-754
round-to-nearest-even rule). -/
def rne (n k : Nat) : Nat :=
  if k = 0 then n
  else if n % 2 ^ k < 2 ^ (k - 1) then n / 2 ^ k
  else if 2 ^ (k - 1) < n % 2 ^ k then n / 2 ^ k + 1
  else if n / 2 ^ k % 2 = 0 then n / 2 ^ k else n / 2 ^ k + 1

/-- `float(n)` for a nonnegative Python int: exact below 2^53, otherwise the
mantissa is rounded to 53 bits (the value is an integer for every n in the
sizes that matter). -/
def toDouble (n : Nat) : Nat :=
  if bitlen n ≤ 53 then n else rne n (bitlen n - 53) * 2 ^ (bitlen n - 53)

/-- Floor of the binary64 rounding of num / 2^s: round the numerator to 53
significant bits (round-to-nearest-even), then take the floor. -/
def floorFl (num s : Nat) : Nat :=
  if bitlen num ≤ 53 then num / 2 ^ s
  else rne num (bitlen num - 53) * 2 ^ (bitlen num - 53) / 2 ^ s

/-- `int(c * n)` for a float literal c = a / 2^s and a Python int n: convert n
to double, multiply in binary64 (one rounding), truncate toward zero. -/
def intOfMulDouble (a s n : Nat) : Nat := floorFl (a * toDouble n) s

/-- The binary64 value of the Python literal 0.7 is c07 / 2^52. -/
def c07 : Nat := 3152519739159347

/-- The binary64 value of the Python literal 0.9 is c09 / 2^53. -/
def c09 : Nat := 8106479329266893

/-- `np.split(shuffled, [int(0.7*n), int(0.9*n)])`: the cut indices are the
IEEE-double computations, NOT the exact floors floor(7n/10) and floor(9n/10):
they differ at some sizes (int(0.7*90) = 62 while floor(63.0) = 63, likewise
n = 170, 180), though they agree at 41188. -/
def splitFrame (sample : Nat → List Nat) (df : DataFrame) :
    DataFrame × DataFrame × DataFrame :=
  let n := df.rows.length
  let shuffled := applySample sample df
  let c1 := intOfMulDouble c07 52 n
  let c2 := intOfMulDouble c09 53 n
  (⟨df.cols, shuffled.rows.take c1⟩,
   ⟨df.cols, (shuffled.rows.drop c1).take (c2 - c1)⟩,
   ⟨df.cols, shuffled.rows.drop c2⟩)

/-- `pd.concat([part['y_yes'], part.drop(['y_yes','y_no'], axis=1)], axis=1)`:
label column first, then the feature columns. -/
def labelFirst (df : DataFrame) : Except String DataFrame := do
  let y ← getCol df "y_yes"
  let rest ← dropCols ["y_yes", "y_no"] df
  return ⟨"y_yes" :: rest.cols, (y.zip rest.rows).map (fun p => p.1 :: p.2)⟩

/-- CSV rendering of one cell (`to_csv` prints ints bare, strings bare). -/
def renderValue : Value → String
  | .str s => s
  | .num n => toString n

/-- CSV rendering of one data row. -/
def renderRow (r : List Value) : String :=
  String.intercalate "," (r.map renderValue)

/-- `to_csv(..., index=False, header=False)`: one line per data row, no header. -/
def toCsvLines (df : DataFrame) : List String := df.rows.map renderRow

/-- A file write: pandas `to_csv` requires the target directory to exist
(it never creates directories); `dirs` is the set of subdirectories present
under the output path. -/
def writeCsv (dirs : List String) (subdir file : String) (lines : List String) :
    Except String (String × List String) :=
  if dirs.contains subdir then .ok (subdir ++ "/" ++ file, lines)
  else .error ("FileNotFoundError: " ++ subdir ++ "/" ++ file)

/-- The six columns dropped by the script. -/
def prunedCols : List String :=
  ["duration", "emp.var.rate", "cons.price.idx", "cons.conf.idx", "euribor3m", "nr.employed"]

/-- Default of the `--categorical_features` argument (parsed by `_parse_args`). -/
def defaultCategoricalFeatures : List String :=
  ["y", "job", "marital", "education", "default", "housing", "loan", "contact",
   "month", "day_of_week", "poutcome"]

/-- Normalization, indicator derivation, column pruning, one-hot encoding:
the derived frame fed to the split. -/
def deriveFrame (df0 : DataFrame) : Except String DataFrame := do
  let df2 ← addIndicators (normalizeDF df0)
  let df3 ← dropCols prunedCols df2
  return getDummies df3

/-- The whole `__main__` body of `preprocessing.py`: derive, split, and write
the four CSVs in the script's order.  `catFeatures` mirrors the parsed
`--categorical_features` argument (the script never reads it after parsing);
the result lists the written files as (path, lines) pairs. -/
def runMain (catFeatures : List String) (sample : Nat → List Nat) (dirs : List String)
    (df0 : DataFrame) : Except String (List (String × List String)) := do
  let df ← deriveFrame df0
  let parts := splitFrame sample df
  let trOut ← labelFirst parts.1
  let w1 ← writeCsv dirs "train" "train.csv" (toCsvLines trOut)
  let vaOut ← labelFirst parts.2.1
  let w2 ← writeCsv dirs "validation" "validation.csv" (toCsvLines vaOut)
  let teY ← getCol parts.2.2 "y_yes"
  let w3 ← writeCsv dirs "test" "test_y.csv" (teY.map renderValue)
  let teX ← dropCols ["y_yes", "y_no"] parts.2.2
  let w4 ← writeCsv dirs "test" "test_x.csv" (toCsvLines teX)
  return [w1, w2, w3, w4]

/-! ### Concrete fixtures

A small input table with the same header shape as the bank-marketing CSV
(label, job, pdays, and the six pruned columns), and a concrete stand-in for
the seeded index permutation.  These instantiate the theorems below. -/

/-- A five-row input table covering both label classes, a dotted categorical
value, a sentinel and non-sentinel `pdays`, and employed/not-working jobs. -/
def df0w : DataFrame :=
  ⟨["y", "job", "pdays", "duration", "emp.var.rate", "cons.price.idx",
    "cons.conf.idx", "euribor3m", "nr.employed"],
   [[.str "no",  .str "admin.",   .num 999, .num 100, .num 1, .num 93, .num (-36), .num 4, .num 5191],
    [.str "yes", .str "student",  .num 3,   .num 200, .num 1, .num 93, .num (-36), .num 4, .num 5191],
    [.str "no",  .str "services", .num 999, .num 150, .num 1, .num 93, .num (-36), .num 4, .num 5191],
    [.str "yes", .str "retired",  .num 6,   .num 120, .num 1, .num 93, .num (-36), .num 4, .num 5191],
    [.str "no",  .str "admin.",   .num 999, .num 110, .num 1, .num 93, .num (-36), .num 4, .num 5191]]⟩

/-- A concrete permutation-valued stand-in for the seeded shuffle. -/
def samplew : Nat → List Nat := fun n => (List.range n).reverse

/-- The derived frame `deriveFrame df0w` evaluates to, written out. -/
def dfw : DataFrame :=
  ⟨["pdays", "no_previous_contact", "not_working", "y_no", "y_yes",
    "job_admin", "job_retired", "job_services", "job_student"],
   [[.num 999, .num 1, .num 0, .num 1, .num 0, .num 1, .num 0, .num 0, .num 0],
    [.num 3,   .num 0, .num 1, .num 0, .num 1, .num 0, .num 0, .num 0, .num 1],
    [.num 999, .num 1, .num 0, .num 1, .num 0, .num 0, .num 0, .num 1, .num 0],
    [.num 6,   .num 0, .num 1, .num 0, .num 1, .num 0, .num 1, .num 0, .num 0],
    [.num 999, .num 1, .num 0, .num 1, .num 0, .num 1, .num 0, .num 0, .num 0]]⟩

/-- The train partition `splitFrame samplew dfw` yields (rows 4, 3, 2). -/
def trw : DataFrame :=
  ⟨dfw.cols,
   [[.num 999, .num 1, .num 0, .num 1, .num 0, .num 1, .num 0, .num 0, .num 0],
    [.num 6,   .num 0, .num 1, .num 0, .num 1, .num 0, .num 1, .num 0, .num 0],
    [.num 999, .num 1, .num 0, .num 1, .num 0, .num 0, .num 0, .num 1, .num 0]]⟩

/-- The validation partition `splitFrame samplew dfw` yields (row 1). -/
def vaw : DataFrame :=
  ⟨dfw.cols, [[.num 3, .num 0, .num 1, .num 0, .num 1, .num 0, .num 0, .num 0, .num 1]]⟩

/-- The test partition `splitFrame samplew dfw` yields (row 0). -/
def tew : DataFrame :=
  ⟨dfw.cols, [[.num 999, .num 1, .num 0, .num 1, .num 0, .num 1, .num 0, .num 0, .num 0]]⟩

/-- The frame `addIndicators (normalizeDF df0w)` evaluates to, written out. -/
def df2w : DataFrame :=
  ⟨["y", "job", "pdays", "duration", "emp.var.rate", "cons.price.idx",
    "cons.conf.idx", "euribor3m", "nr.employed", "no_previous_contact", "not_working"],
   [[.str "no",  .str "admin",    .num 999, .num 100, .num 1, .num 93, .num (-36), .num 4, .num 5191, .num 1, .num 0],
    [.str "yes", .str "student",  .num 3,   .num 200, .num 1, .num 93, .num (-36), .num 4, .num 5191, .num 0, .num 1],
    [.str "no",  .str "services", .num 999, .num 150, .num 1, .num 93, .num (-36), .num 4, .num 5191, .num 1, .num 0],
    [.str "yes", .str "retired",  .num 6,   .num 120, .num 1, .num 93, .num (-36), .num 4, .num 5191, .num 0, .num 1],
    [.str "no",  .str "admin",    .num 999, .num 110, .num 1, .num 93, .num (-36), .num 4, .num 5191, .num 1, .num 0]]⟩

/-- The frame serialized to train/train.csv on the fixture. -/
def trOutw : DataFrame :=
  ⟨["y_yes", "pdays", "no_previous_contact", "not_working",
    "job_admin", "job_retired", "job_services", "job_student"],
   [[.num 0, .num 999, .num 1, .num 0, .num 1, .num 0, .num 0, .num 0],
    [.num 1, .num 6,   .num 0, .num 1, .num 0, .num 1, .num 0, .num 0],
    [.num 0, .num 999, .num 1, .num 0, .num 0, .num 0, .num 1, .num 0]]⟩

/-- The frame serialized to validation/validation.csv on the fixture. -/
def vaOutw : DataFrame :=
  ⟨["y_yes", "pdays", "no_previous_contact", "not_working",
    "job_admin", "job_retired", "job_services", "job_student"],
   [[.num 1, .num 3, .num 0, .num 1, .num 0, .num 0, .num 0, .num 1]]⟩

/-- The frame serialized to test/test_x.csv on the fixture. -/
def teXw : DataFrame :=
  ⟨["pdays", "no_previous_contact", "not_working",
    "job_admin", "job_retired", "job_services", "job_student"],
   [[.num 999, .num 1, .num 0, .num 1, .num 0, .num 0, .num 0]]⟩

/-- The test partition of the fixture with only y_no dropped. -/
def teNow : DataFrame :=
  ⟨["pdays", "no_previous_contact", "not_working", "y_yes",
    "job_admin", "job_retired", "job_services", "job_student"],
   [[.num 999, .num 1, .num 0, .num 0, .num 1, .num 0, .num 0, .num 0]]⟩

/-- Row i of a 90-row input table: alternating labels, a dotted job value,
sentinel pdays on every third row. -/
def mkRow90 (i : Nat) : List Value :=
  [.str (if i % 2 = 0 then "no" else "yes"), .str "admin.",
   .num (if i % 3 = 0 then 999 else (i : Int)), .num (i : Int), .num 1, .num 93,
   .num (-36), .num 4, .num 5191]

/-- A 90-row input table: a size where the program's float cut int(0.7*90)
is 62 while the exact floor of 0.7*90 is 63. -/
def df90 : DataFrame := ⟨df0w.cols, (List.range 90).map mkRow90⟩

/-! ### Basic lemmas about the embedding -/

theorem colIdx?_eq_none_iff (cs : List String) (t : String) :
    colIdx? cs t = none ↔ t ∉ cs := by
  induction cs with
  | nil => simp [colIdx?]
  | cons c cs ih =>
    by_cases hc : c = t
    · simp [colIdx?, hc]
    · simp [colIdx?, hc, ih, Ne.symm hc]

theorem colIdx?_lt_length {cs : List String} {t : String} {i : Nat}
    (h : colIdx? cs t = some i) : i < cs.length := by
  induction cs generalizing i with
  | nil => simp [colIdx?] at h
  | cons c cs ih =>
    by_cases hc : c = t
    · simp [colIdx?, hc] at h
      simp only [List.length_cons]
      omega
    · simp only [colIdx?, hc, if_false, Option.map_eq_some'] at h
      obtain ⟨j, hj, rfl⟩ := h
      have := ih hj
      simp only [List.length_cons]
      omega

theorem colIdx?_append {cs ds : List String} {t : String} {i : Nat}
    (h : colIdx? cs t = some i) : colIdx? (cs ++ ds) t = some i := by
  induction cs generalizing i with
  | nil => simp [colIdx?] at h
  | cons c cs ih =>
    by_cases hc : c = t
    · simp only [colIdx?, hc, if_true] at h ⊢
      exact h
    · simp only [colIdx?, hc, if_false, Option.map_eq_some', List.cons_append] at h ⊢
      obtain ⟨j, hj, rfl⟩ := h
      exact ⟨j, ih hj, rfl⟩

theorem colIdx?_append_self {cs : List String} {t : String} (h : t ∉ cs) :
    colIdx? (cs ++ [t]) t = some cs.length := by
  induction cs with
  | nil => simp [colIdx?]
  | cons c cs ih =>
    have hc : c ≠ t := fun e => h (e ▸ List.mem_cons_self c cs)
    have hm : t ∉ cs := fun m => h (List.mem_cons_of_mem _ m)
    simp [colIdx?, hc, ih hm]

theorem map_getD_range {α : Type} (l : List α) (d : α) :
    (List.range l.length).map (fun i => l.getD i d) = l := by
  apply List.ext_getElem
  · simp
  · intro i h1 h2
    simp [List.getD_eq_getElem?_getD, List.getElem?_eq_getElem h2]

theorem bitlenAux_zero (fuel : Nat) : bitlenAux fuel 0 = 0 := by
  cases fuel <;> simp [bitlenAux]

theorem bitlenAux_spec : ∀ (fuel n : Nat), n ≤ fuel → 1 ≤ n →
    2 ^ (bitlenAux fuel n - 1) ≤ n ∧ n < 2 ^ bitlenAux fuel n := by
  intro fuel
  induction fuel with
  | zero => intro n hf h1; omega
  | succ fuel ih =>
    intro n hf h1
    have hn0 : ¬ n = 0 := by omega
    simp only [bitlenAux, hn0, if_false]
    by_cases h2 : n / 2 = 0
    · have hn1 : n = 1 := by omega
      subst hn1
      rw [(by norm_num : (1 : Nat) / 2 = 0), bitlenAux_zero]
      decide
    · have hf' : n / 2 ≤ fuel := by omega
      have h1' : 1 ≤ n / 2 := by omega
      obtain ⟨ha, hb⟩ := ih (n / 2) hf' h1'
      have hB1 : 1 ≤ bitlenAux fuel (n / 2) := by
        by_contra hc
        push_neg at hc
        have hz : bitlenAux fuel (n / 2) = 0 := by omega
        rw [hz] at hb
        simp at hb
        omega
      have hpow : 2 ^ bitlenAux fuel (n / 2) = 2 * 2 ^ (bitlenAux fuel (n / 2) - 1) := by
        have hBe : bitlenAux fuel (n / 2) = (bitlenAux fuel (n / 2) - 1) + 1 := by omega
        calc 2 ^ bitlenAux fuel (n / 2) = 2 ^ ((bitlenAux fuel (n / 2) - 1) + 1) := by
              rw [← hBe]
          _ = 2 ^ (bitlenAux fuel (n / 2) - 1) * 2 := pow_succ 2 _
          _ = 2 * 2 ^ (bitlenAux fuel (n / 2) - 1) := by ring
      have hpow2 : 2 ^ (bitlenAux fuel (n / 2) + 1) = 2 * 2 ^ bitlenAux fuel (n / 2) := by
        rw [pow_succ]
        ring
      constructor
      · simp only [Nat.add_sub_cancel]
        omega
      · omega

theorem bitlen_spec {n : Nat} (h : 1 ≤ n) :
    2 ^ (bitlen n - 1) ≤ n ∧ n < 2 ^ bitlen n :=
  bitlenAux_spec n n le_rfl h

theorem rne_bounds (n k : Nat) : n / 2 ^ k ≤ rne n k ∧ rne n k ≤ n / 2 ^ k + 1 := by
  unfold rne
  by_cases hk : k = 0
  · subst hk
    simp
  · simp only [hk, if_false]
    split_ifs <;> omega

theorem pow_sub_le_of_gt {num : Nat} (hb : ¬ bitlen num ≤ 53) :
    2 ^ (bitlen num - 53) * 2 ^ 52 ≤ num := by
  have hnum1 : 1 ≤ num := by
    rcases Nat.eq_zero_or_pos num with h0 | h1
    · subst h0
      simp [bitlen, bitlenAux] at hb
    · exact h1
  obtain ⟨hlo, -⟩ := bitlen_spec hnum1
  rw [← pow_add]
  calc 2 ^ (bitlen num - 53 + 52) = 2 ^ (bitlen num - 1) := by
        congr 1
        omega
    _ ≤ num := hlo

theorem floorFl_le (num s : Nat) : floorFl num s ≤ (num + num / 2 ^ 52) / 2 ^ s := by
  unfold floorFl
  by_cases hb : bitlen num ≤ 53
  · simp only [hb, if_true]
    exact Nat.div_le_div_right (Nat.le_add_right _ _)
  · simp only [hb, if_false]
    have h2k : 2 ^ (bitlen num - 53) ≤ num / 2 ^ 52 :=
      (Nat.le_div_iff_mul_le (by positivity)).mpr (pow_sub_le_of_gt hb)
    obtain ⟨-, hrle⟩ := rne_bounds num (bitlen num - 53)
    have hmain : rne num (bitlen num - 53) * 2 ^ (bitlen num - 53) ≤ num + num / 2 ^ 52 := by
      have hd : num / 2 ^ (bitlen num - 53) * 2 ^ (bitlen num - 53) ≤ num :=
        Nat.div_mul_le_self _ _
      have hmul := Nat.mul_le_mul_right (2 ^ (bitlen num - 53)) hrle
      rw [Nat.add_mul, one_mul] at hmul
      omega
    exact Nat.div_le_div_right hmain

theorem floorFl_ge (num s : Nat) : (num - num / 2 ^ 52) / 2 ^ s ≤ floorFl num s := by
  unfold floorFl
  by_cases hb : bitlen num ≤ 53
  · simp only [hb, if_true]
    exact Nat.div_le_div_right (by omega)
  · simp only [hb, if_false]
    have h2k : 2 ^ (bitlen num - 53) ≤ num / 2 ^ 52 :=
      (Nat.le_div_iff_mul_le (by positivity)).mpr (pow_sub_le_of_gt hb)
    obtain ⟨hrge, -⟩ := rne_bounds num (bitlen num - 53)
    have hmain : num - num / 2 ^ 52 ≤ rne num (bitlen num - 53) * 2 ^ (bitlen num - 53) := by
      have hmul := Nat.mul_le_mul_right (2 ^ (bitlen num - 53)) hrge
      have hdm := Nat.div_add_mod num (2 ^ (bitlen num - 53))
      have hmlt : num % 2 ^ (bitlen num - 53) < 2 ^ (bitlen num - 53) :=
        Nat.mod_lt _ (by positivity)
      have hcomm : 2 ^ (bitlen num - 53) * (num / 2 ^ (bitlen num - 53))
          = num / 2 ^ (bitlen num - 53) * 2 ^ (bitlen num - 53) := Nat.mul_comm _ _
      omega
    exact Nat.div_le_div_right hmain

theorem toDouble_bounds (n : Nat) :
    n - n / 2 ^ 52 ≤ toDouble n ∧ toDouble n ≤ n + n / 2 ^ 52 := by
  unfold toDouble
  by_cases hb : bitlen n ≤ 53
  · simp only [hb, if_true]
    omega
  · simp only [hb, if_false]
    have h2k : 2 ^ (bitlen n - 53) ≤ n / 2 ^ 52 :=
      (Nat.le_div_iff_mul_le (by positivity)).mpr (pow_sub_le_of_gt hb)
    obtain ⟨hrge, hrle⟩ := rne_bounds n (bitlen n - 53)
    have hmulle := Nat.mul_le_mul_right (2 ^ (bitlen n - 53)) hrle
    rw [Nat.add_mul, one_mul] at hmulle
    have hmulge := Nat.mul_le_mul_right (2 ^ (bitlen n - 53)) hrge
    have hdm := Nat.div_add_mod n (2 ^ (bitlen n - 53))
    have hmlt : n % 2 ^ (bitlen n - 53) < 2 ^ (bitlen n - 53) :=
      Nat.mod_lt _ (by positivity)
    have hcomm : 2 ^ (bitlen n - 53) * (n / 2 ^ (bitlen n - 53))
        = n / 2 ^ (bitlen n - 53) * 2 ^ (bitlen n - 53) := Nat.mul_comm _ _
    constructor <;> omega

theorem cut09_le (n : Nat) : intOfMulDouble c09 53 n ≤ n := by
  unfold intOfMulDouble
  obtain ⟨-, hm⟩ := toDouble_bounds n
  refine le_trans (floorFl_le (c09 * toDouble n) 53) ?_
  have hD : (2 : Nat) ^ 52 = 4503599627370496 := by norm_num
  have hD3 : (2 : Nat) ^ 53 = 9007199254740992 := by norm_num
  rw [hD, hD3]
  rw [hD] at hm
  simp only [c09]
  omega

theorem cut07_le_cut09 (n : Nat) : intOfMulDouble c07 52 n ≤ intOfMulDouble c09 53 n := by
  unfold intOfMulDouble
  refine le_trans (floorFl_le (c07 * toDouble n) 52)
    (le_trans ?_ (floorFl_ge (c09 * toDouble n) 53))
  have hD : (2 : Nat) ^ 52 = 4503599627370496 := by norm_num
  have hD3 : (2 : Nat) ^ 53 = 9007199254740992 := by norm_num
  rw [hD, hD3]
  simp only [c07, c09]
  omega

theorem cut07_le (n : Nat) : intOfMulDouble c07 52 n ≤ n :=
  le_trans (cut07_le_cut09 n) (cut09_le n)

theorem split3_props {α : Type} (S : List α) (c1 c2 : Nat) (h12 : c1 ≤ c2)
    (h2 : c2 ≤ S.length) :
    (S.take c1).length = c1
    ∧ ((S.drop c1).take (c2 - c1)).length = c2 - c1
    ∧ (S.drop c2).length = S.length - c2
    ∧ S.take c1 ++ ((S.drop c1).take (c2 - c1) ++ S.drop c2) = S := by
  have h1 : c1 ≤ S.length := le_trans h12 h2
  refine ⟨?_, ?_, ?_, ?_⟩
  · simp [List.length_take]
    omega
  · simp [List.length_take, List.length_drop]
    omega
  · simp [List.length_drop]
  · conv_rhs => rw [← List.take_append_drop c1 S]
    congr 1
    conv_rhs => rw [← List.take_append_drop (c2 - c1) (S.drop c1)]
    congr 1
    rw [List.drop_drop]
    congr 1
    omega

theorem split3_disjoint {α : Type} (S : List α) (c1 c2 : Nat) (h12 : c1 ≤ c2)
    (h2 : c2 ≤ S.length) (hnd : S.Nodup) :
    (S.take c1).Disjoint ((S.drop c1).take (c2 - c1))
    ∧ (S.take c1).Disjoint (S.drop c2)
    ∧ ((S.drop c1).take (c2 - c1)).Disjoint (S.drop c2) := by
  obtain ⟨-, -, -, hcat⟩ := split3_props S c1 c2 h12 h2
  rw [← hcat] at hnd
  rw [List.nodup_append] at hnd
  obtain ⟨-, hnd2, hdisj⟩ := hnd
  rw [List.nodup_append] at hnd2
  rw [List.disjoint_append_right] at hdisj
  exact ⟨hdisj.1, hdisj.2, hnd2.2.2⟩

theorem zip_append_getD {rs : List (List Value)} {vs : List Value} {k : Nat}
    (hlen : rs.length = vs.length) (hk : ∀ r ∈ rs, r.length = k) :
    ((rs.zip vs).map (fun p => p.1 ++ [p.2])).map (fun r => r.getD k (.num 0)) = vs := by
  induction rs generalizing vs with
  | nil =>
    cases vs with
    | nil => rfl
    | cons v vs => simp at hlen
  | cons r rs ih =>
    cases vs with
    | nil => simp at hlen
    | cons v vs =>
      simp only [List.zip_cons_cons, List.map_cons]
      congr 1
      · have hr : r.length = k := hk r (List.mem_cons_self r rs)
        rw [← hr]
        simp [List.getD_eq_getElem?_getD, List.getElem?_concat_length]
      · exact ih (by simpa using hlen) (fun x hx => hk x (List.mem_cons_of_mem _ hx))

theorem zip_append_getD_lt {rs : List (List Value)} {vs : List Value} {i k : Nat}
    (hlen : rs.length = vs.length) (hk : ∀ r ∈ rs, r.length = k) (hik : i < k) :
    ((rs.zip vs).map (fun p => p.1 ++ [p.2])).map (fun r => r.getD i (.num 0))
      = rs.map (fun r => r.getD i (.num 0)) := by
  induction rs generalizing vs with
  | nil => rfl
  | cons r rs ih =>
    cases vs with
    | nil => simp at hlen
    | cons v vs =>
      simp only [List.zip_cons_cons, List.map_cons]
      congr 1
      · have hr : r.length = k := hk r (List.mem_cons_self r rs)
        simp [List.getD_eq_getElem?_getD, List.getElem?_append_left (by omega : i < r.length)]
      · exact ih (by simpa using hlen) (fun x hx => hk x (List.mem_cons_of_mem _ hx))

theorem setCol_fresh (df : DataFrame) (c : String) (vals : List Value)
    (hc : c ∉ df.cols) :
    setCol df c vals = ⟨df.cols ++ [c], (df.rows.zip vals).map (fun p => p.1 ++ [p.2])⟩ := by
  unfold setCol
  rw [(colIdx?_eq_none_iff _ _).mpr hc]

theorem getCol_length {df : DataFrame} {c : String} {vs : List Value}
    (h : getCol df c = .ok vs) : vs.length = df.rows.length := by
  unfold getCol at h
  cases hidx : colIdx? df.cols c with
  | none => rw [hidx] at h; cases h
  | some i =>
    rw [hidx] at h
    cases h
    simp

theorem wf_setCol_fresh (df : DataFrame) (c : String) (vals : List Value)
    (hc : c ∉ df.cols) (hw : Wf df) : Wf (setCol df c vals) := by
  rw [setCol_fresh df c vals hc]
  intro r hr
  simp only at hr
  obtain ⟨⟨a, b⟩, hp, rfl⟩ := List.mem_map.mp hr
  have ha : a ∈ df.rows := (List.of_mem_zip hp).1
  simp [hw a ha]

theorem rows_setCol_fresh (df : DataFrame) (c : String) (vals : List Value)
    (hc : c ∉ df.cols) (hlen : df.rows.length = vals.length) :
    (setCol df c vals).rows.length = df.rows.length := by
  rw [setCol_fresh df c vals hc]
  simp [List.length_zip, hlen]

theorem getCol_setCol_fresh (df : DataFrame) (c : String) (vals : List Value)
    (hc : c ∉ df.cols) (hw : Wf df) (hlen : df.rows.length = vals.length) :
    getCol (setCol df c vals) c = .ok vals := by
  rw [setCol_fresh df c vals hc]
  unfold getCol
  rw [colIdx?_append_self hc]
  simp only [Except.ok.injEq]
  exact zip_append_getD hlen hw

theorem getCol_setCol_fresh_other (df : DataFrame) (c t : String) (vals : List Value)
    (hc : c ∉ df.cols) (hw : Wf df) (hlen : df.rows.length = vals.length)
    (ht : t ∈ df.cols) :
    getCol (setCol df c vals) t = getCol df t := by
  rw [setCol_fresh df c vals hc]
  unfold getCol
  rcases hidx : colIdx? df.cols t with _ | i
  · exact absurd ht ((colIdx?_eq_none_iff _ _).mp hidx)
  · rw [colIdx?_append hidx]
    simp only [Except.ok.injEq]
    exact zip_append_getD_lt hlen hw (colIdx?_lt_length hidx)

theorem notWorkingVal_eq (v : Value) :
    notWorkingVal v
      = .num (if v = .str "student" ∨ v = .str "retired" ∨ v = .str "unemployed"
              then 1 else 0) := by
  cases v <;> simp [notWorkingVal]

theorem except_bind_ok {ε α β : Type} {x : Except ε α} {f : α → Except ε β} {b : β}
    (h : x >>= f = .ok b) : ∃ a, x = .ok a ∧ f a = .ok b := by
  cases x with
  | error e => simp [Bind.bind, Except.bind] at h
  | ok a => exact ⟨a, rfl, h⟩

theorem writeCsv_ok {dirs : List String} {sub file : String} {lines : List String}
    {w : String × List String} (h : writeCsv dirs sub file lines = .ok w) :
    sub ∈ dirs ∧ w = (sub ++ "/" ++ file, lines) := by
  unfold writeCsv at h
  cases hc : dirs.contains sub with
  | true =>
    rw [if_pos hc] at h
    refine ⟨List.elem_iff.mp hc, ?_⟩
    cases h
    rfl
  | false =>
    rw [hc] at h
    simp at h

theorem dropCols_ok_cols {ns : List String} {df d' : DataFrame}
    (h : dropCols ns df = .ok d') :
    d'.cols = df.cols.filter (fun c => !(ns.contains c)) := by
  unfold dropCols at h
  cases hc : ns.all (fun n => df.cols.contains n) with
  | true =>
    rw [hc] at h
    simp only [if_true] at h
    injection h with h
    rw [← h]
  | false =>
    rw [hc] at h
    simp at h

theorem labelFirst_cols {p out : DataFrame} (h : labelFirst p = .ok out) :
    out.cols = "y_yes" :: p.cols.filter (fun c => !(["y_yes", "y_no"].contains c)) := by
  unfold labelFirst at h
  obtain ⟨y, hy, h⟩ := except_bind_ok h
  obtain ⟨rest, hrest, h⟩ := except_bind_ok h
  have hcols := dropCols_ok_cols hrest
  replace h : (⟨"y_yes" :: rest.cols, (y.zip rest.rows).map (fun q => q.1 :: q.2)⟩ : DataFrame)
      = out := by
    simpa [pure, Except.pure] using h
  rw [← h]
  simpa using hcols

theorem getDummies_cols_mem {d : DataFrame} {x : String}
    (hx : x ∈ (getDummies d).cols) :
    x ∈ d.cols ∨ ∃ a b, x = a ++ "_" ++ b := by
  unfold getDummies at hx
  simp only [List.mem_append] at hx
  rcases hx with hk | hdum
  · left
    obtain ⟨i, hi, rfl⟩ := List.mem_map.mp hk
    have hir : i < d.cols.length := List.mem_range.mp (List.mem_of_mem_filter hi)
    rw [List.getD_eq_getElem?_getD, List.getElem?_eq_getElem hir]
    exact List.getElem_mem hir
  · right
    obtain ⟨i, _, hx⟩ := List.mem_flatMap.mp hdum
    obtain ⟨b, _, rfl⟩ := List.mem_map.mp hx
    exact ⟨d.cols.getD i "", b, rfl⟩

theorem ne_dummyName_of_no_underscore {t : String} (h : ¬ ('_' ∈ t.data)) (a b : String) :
    t ≠ a ++ "_" ++ b := by
  intro e
  apply h
  rw [e]
  simp [String.data_append]

theorem deriveFrame_ok {df0 df : DataFrame} (h : deriveFrame df0 = .ok df) :
    ∃ df2 df3, addIndicators (normalizeDF df0) = .ok df2
      ∧ dropCols prunedCols df2 = .ok df3
      ∧ df = getDummies df3 := by
  unfold deriveFrame at h
  obtain ⟨df2, h2, h⟩ := except_bind_ok h
  obtain ⟨df3, h3, h⟩ := except_bind_ok h
  refine ⟨df2, df3, h2, h3, ?_⟩
  simpa [pure, Except.pure] using h.symm

theorem dropCols_ok_rows {ns : List String} {df d' : DataFrame}
    (h : dropCols ns df = .ok d') :
    d'.rows = df.rows.map (dropRow df.cols ns) := by
  unfold dropCols at h
  cases hc : ns.all (fun n => df.cols.contains n) with
  | true =>
    rw [hc] at h
    simp only [if_true] at h
    injection h with h
    rw [← h]
  | false =>
    rw [hc] at h
    simp at h

theorem dropCols_ok_mem {ns : List String} {df d' : DataFrame}
    (h : dropCols ns df = .ok d') : ∀ n ∈ ns, n ∈ df.cols := by
  unfold dropCols at h
  cases hc : ns.all (fun n => df.cols.contains n) with
  | true =>
    intro n hn
    have := List.all_eq_true.mp hc n hn
    simpa [List.contains, List.elem_eq_mem] using this
  | false =>
    rw [hc] at h
    simp at h

theorem getCol_ok {df : DataFrame} {c : String} {vs : List Value}
    (h : getCol df c = .ok vs) :
    ∃ i, colIdx? df.cols c = some i ∧ vs = df.rows.map (fun r => r.getD i (.num 0)) := by
  unfold getCol at h
  cases hidx : colIdx? df.cols c with
  | none => rw [hidx] at h; cases h
  | some i =>
    rw [hidx] at h
    injection h with h
    exact ⟨i, rfl, h.symm⟩

theorem filter_beq_singleton {L : List String} {t : String} (hnd : L.Nodup) (ht : t ∈ L) :
    L.filter (fun c => c == t) = [t] := by
  induction L with
  | nil => cases ht
  | cons a L ih =>
    rcases List.nodup_cons.mp hnd with ⟨hna, hndL⟩
    by_cases ha : a = t
    · subst ha
      have hnot : L.filter (fun c => c == a) = [] :=
        List.filter_eq_nil_iff.mpr (fun b hb => by
          simp only [beq_iff_eq]
          rintro rfl
          exact hna hb)
      simp [List.filter_cons, hnot]
    · have ht' : t ∈ L := by
        rcases List.mem_cons.mp ht with rfl | hmem
        · exact absurd rfl ha
        · exact hmem
      simp [List.filter_cons, ha, ih hndL ht']

theorem zip_dropRow (ns : List String) : ∀ (cols : List String) (r : List Value),
    r.length = cols.length →
    (cols.filter (fun c => !(ns.contains c))).zip (dropRow cols ns r)
      = (cols.zip r).filter (fun q => !(ns.contains q.1)) := by
  intro cols
  induction cols with
  | nil =>
    intro r h
    cases r with
    | nil => rfl
    | cons v r => simp at h
  | cons c cols ih =>
    intro r h
    cases r with
    | nil => simp at h
    | cons v r =>
      have ih' := ih r (by simpa using h)
      unfold dropRow at ih' ⊢
      by_cases hc : c ∈ ns
      · simpa [List.filter_cons, hc] using ih'
      · simpa [List.filter_cons, hc] using ih'

theorem dropRow_length (ns : List String) : ∀ (cols : List String) (r : List Value),
    r.length = cols.length →
    (dropRow cols ns r).length = (cols.filter (fun c => !(ns.contains c))).length := by
  intro cols
  induction cols with
  | nil =>
    intro r h
    cases r with
    | nil => rfl
    | cons v r => simp at h
  | cons c cols ih =>
    intro r h
    cases r with
    | nil => simp at h
    | cons v r =>
      have ih' := ih r (by simpa using h)
      unfold dropRow at ih' ⊢
      by_cases hc : c ∈ ns
      · simpa [List.filter_cons, hc] using ih'
      · simpa [List.filter_cons, hc] using ih'

theorem zip_filter_beq_eq : ∀ (cols : List String) (r : List Value) (t : String) (i : Nat),
    cols.Nodup → r.length = cols.length → colIdx? cols t = some i →
    (cols.zip r).filter (fun q => q.1 == t) = [(t, r.getD i (.num 0))] := by
  intro cols
  induction cols with
  | nil => intro r t i _ _ hidx; simp [colIdx?] at hidx
  | cons c cols ih =>
    intro r t i hnd hlen hidx
    cases r with
    | nil => simp at hlen
    | cons v r =>
      rcases List.nodup_cons.mp hnd with ⟨hnc, hndc⟩
      by_cases hc : c = t
      · subst hc
        simp only [colIdx?, if_pos rfl] at hidx
        injection hidx with hi
        subst hi
        have hnil : (cols.zip r).filter (fun q => q.1 == c) = [] :=
          List.filter_eq_nil_iff.mpr (fun q hq => by
            simp only [beq_iff_eq]
            intro he
            exact hnc (he ▸ (List.of_mem_zip hq).1))
        simp [List.filter_cons, hnil]
      · simp only [colIdx?, if_neg hc, Option.map_eq_some'] at hidx
        obtain ⟨j, hj, hji⟩ := hidx
        subst hji
        have := ih r t j hndc (by simpa using hlen) hj
        have hbc : (c == t) = false := by simp [hc]
        simp [List.filter_cons, hbc, this]

theorem perm_insert_of_filters {β : Type} (L : List β) (p1 p2 sel : β → Bool) (e : β)
    (hp2 : ∀ x ∈ L, p2 x = (p1 x && !(sel x)))
    (hsel : L.filter (fun x => p1 x && sel x) = [e]) :
    (L.filter p2 ++ [e]).Perm (L.filter p1) := by
  have h := List.filter_append_perm (fun x => !(sel x)) (L.filter p1)
  rw [List.filter_filter, List.filter_filter] at h
  have e1 : L.filter (fun a => !(sel a) && p1 a) = L.filter p2 :=
    List.filter_congr (fun a ha => by rw [hp2 a ha, Bool.and_comm])
  have e2 : L.filter (fun a => !(!(sel a)) && p1 a) = [e] := by
    rw [List.filter_congr (fun a ha => by rw [Bool.not_not, Bool.and_comm])]
    exact hsel
  rw [e1, e2] at h
  exact h

theorem wf_getDummies (d : DataFrame) : Wf (getDummies d) := by
  intro r' hr'
  unfold getDummies at hr' ⊢
  simp only at hr'
  obtain ⟨r, hr, rfl⟩ := List.mem_map.mp hr'
  simp only [List.length_append, List.length_map, List.length_flatMap']
  congr 1
  congr 1
  apply List.map_congr_left
  intro i hi
  simp

theorem wf_splitFrame_te {sample : Nat → List Nat} {df : DataFrame}
    (hs : (sample df.rows.length).Perm (List.range df.rows.length)) (hw : Wf df) :
    Wf (splitFrame sample df).2.2 := by
  intro r hr
  dsimp only [splitFrame] at hr
  have hr' : r ∈ (applySample sample df).rows := List.mem_of_mem_drop hr
  dsimp only [applySample] at hr'
  obtain ⟨i, hi, rfl⟩ := List.mem_map.mp hr'
  have hin : i < df.rows.length := List.mem_range.mp (hs.mem_iff.mp hi)
  rw [List.getD_eq_getElem?_getD, List.getElem?_eq_getElem hin]
  exact hw _ (List.getElem_mem hin)

/-! ### Claim theorems (first group) -/

/-- C3: the textual normalization, applied to every string field value of the
table, first replaces every literal dot by an underscore, then strips a single
trailing underscore; "admin." becomes "admin" and "a.b.c" becomes "a_b_c". -/
theorem c3_normalization (df : DataFrame) :
    (normalizeDF df).rows =
      df.rows.map (List.map (fun v => valueStripTrailing (valueReplaceDots v)))
    ∧ valueStripTrailing (valueReplaceDots (.str "admin.")) = .str "admin"
    ∧ valueStripTrailing (valueReplaceDots (.str "a.b.c")) = .str "a_b_c" := by
  refine ⟨?_, by decide, by decide⟩
  simp [normalizeDF, replaceValues, List.map_map, Function.comp]

/-- C5: the preprocessor is deterministic: with the seeded shuffle fixed, two
runs on the same input table produce identical outputs (all four files). -/
theorem c5_deterministic (cats : List String) (sample : Nat → List Nat)
    (dirs : List String) (df0 df0' : DataFrame) (h : df0 = df0') :
    runMain cats sample dirs df0 = runMain cats sample dirs df0' := by
  rw [h]

/-- Witness for C5 at the concrete fixture. -/
theorem c5_deterministic_witness :
    runMain defaultCategoricalFeatures samplew ["train", "validation", "test"] df0w =
      runMain defaultCategoricalFeatures samplew ["train", "validation", "test"] df0w :=
  c5_deterministic defaultCategoricalFeatures samplew ["train", "validation", "test"]
    df0w df0w rfl

/-- C9: the four output files do not depend on the `--categorical_features`
argument: the script parses it and never reads it, and `pd.get_dummies(df)`
encodes every string column regardless of the supplied list. -/
theorem c9_output_independent_of_categorical_arg (cats1 cats2 : List String)
    (sample : Nat → List Nat) (dirs : List String) (df0 : DataFrame) :
    runMain cats1 sample dirs df0 = runMain cats2 sample dirs df0 := rfl

/-- C7 counterexample: supplying a categorical-feature list naming a column
absent from the input does not make the run fail; on the fixture the run
completes and writes all four files. -/
theorem c7_counterexample :
    runMain ["nonexistent_column"] samplew ["train", "validation", "test"] df0w =
      Except.ok
        [("train/train.csv", ["0,999,1,0,1,0,0,0", "1,6,0,1,0,1,0,0", "0,999,1,0,0,0,1,0"]),
         ("validation/validation.csv", ["1,3,0,1,0,0,0,1"]),
         ("test/test_y.csv", ["0"]),
         ("test/test_x.csv", ["999,1,0,1,0,0,0"])] := by
  with_unfolding_all rfl

/-- C7 amended: an unknown column name in the categorical-feature list causes
no lookup error anywhere: the argument is parsed and then ignored, so the run
behaves exactly as with the default list. -/
theorem c7_unknown_categorical_ignored (cats : List String) (sample : Nat → List Nat)
    (dirs : List String) (df0 : DataFrame) (h : ∃ c ∈ cats, c ∉ df0.cols) :
    runMain cats sample dirs df0 = runMain defaultCategoricalFeatures sample dirs df0 := rfl

/-- Witness for the amended C7. -/
theorem c7_unknown_categorical_ignored_witness :
    runMain ["nonexistent_column"] samplew ["train", "validation", "test"] df0w =
      runMain defaultCategoricalFeatures samplew ["train", "validation", "test"] df0w :=
  c7_unknown_categorical_ignored ["nonexistent_column"] samplew
    ["train", "validation", "test"] df0w (by decide)

/-- C10: the normalization passes rewrite only field values, never column
labels, so the later drop of the dotted-name columns still finds them. -/
theorem c10_normalization_preserves_colnames (df : DataFrame)
    (h : ∀ c ∈ prunedCols, c ∈ df.cols) :
    (normalizeDF df).cols = df.cols
    ∧ dropCols prunedCols (normalizeDF df) =
        .ok ⟨(normalizeDF df).cols.filter (fun c => !(prunedCols.contains c)),
             (normalizeDF df).rows.map (dropRow (normalizeDF df).cols prunedCols)⟩ := by
  refine ⟨rfl, ?_⟩
  have hall : prunedCols.all (fun n => (normalizeDF df).cols.contains n) = true := by
    simp only [List.all_eq_true, List.contains, List.elem_eq_mem, decide_eq_true_eq]
    exact h
  simp only [dropCols]
  rw [if_pos hall]

/-- Witness for C10 at the concrete fixture. -/
theorem c10_normalization_preserves_colnames_witness :
    (normalizeDF df0w).cols = df0w.cols
    ∧ dropCols prunedCols (normalizeDF df0w) =
        .ok ⟨(normalizeDF df0w).cols.filter (fun c => !(prunedCols.contains c)),
             (normalizeDF df0w).rows.map (dropRow (normalizeDF df0w).cols prunedCols)⟩ :=
  c10_normalization_preserves_colnames df0w (by decide)

/-- C8 counterexample: against an existing but empty output directory (no
train/, validation/, test/ subdirectories) the run errors instead of creating
them: pandas `to_csv` does not create missing directories and the script never
calls makedirs. -/
theorem c8_counterexample :
    runMain defaultCategoricalFeatures samplew [] df0w =
      Except.error "FileNotFoundError: train/train.csv" := by
  with_unfolding_all rfl

/-- C8 amended: the preprocessor's only side effect is writing the four
output files, but it creates no directories: a successful run presupposes the
train/, validation/ and test/ subdirectories already exist, and then the files
written are exactly train/train.csv, validation/validation.csv,
test/test_y.csv and test/test_x.csv. -/
theorem c8_writes_require_dirs (cats : List String) (sample : Nat → List Nat)
    (dirs : List String) (df0 : DataFrame) (ws : List (String × List String))
    (h : runMain cats sample dirs df0 = .ok ws) :
    ("train" ∈ dirs ∧ "validation" ∈ dirs ∧ "test" ∈ dirs)
    ∧ ws.map Prod.fst =
        ["train/train.csv", "validation/validation.csv",
         "test/test_y.csv", "test/test_x.csv"] := by
  unfold runMain at h
  obtain ⟨df, hdf, h⟩ := except_bind_ok h
  dsimp only at h
  obtain ⟨trOut, htr, h⟩ := except_bind_ok h
  obtain ⟨w1, hw1, h⟩ := except_bind_ok h
  obtain ⟨vaOut, hva, h⟩ := except_bind_ok h
  obtain ⟨w2, hw2, h⟩ := except_bind_ok h
  obtain ⟨teY, hty, h⟩ := except_bind_ok h
  obtain ⟨w3, hw3, h⟩ := except_bind_ok h
  obtain ⟨teX, htx, h⟩ := except_bind_ok h
  obtain ⟨w4, hw4, h⟩ := except_bind_ok h
  obtain ⟨h1, e1⟩ := writeCsv_ok hw1
  obtain ⟨h2, e2⟩ := writeCsv_ok hw2
  obtain ⟨h3, e3⟩ := writeCsv_ok hw3
  obtain ⟨h4, e4⟩ := writeCsv_ok hw4
  have hws : ws = [w1, w2, w3, w4] := by
    simpa [pure, Except.pure] using h.symm
  subst hws e1 e2 e3 e4
  exact ⟨⟨h1, h2, h3⟩, rfl⟩

/-- Witness for the amended C8 at the concrete fixture. -/
theorem c8_writes_require_dirs_witness :
    ("train" ∈ ["train", "validation", "test"] ∧ "validation" ∈ ["train", "validation", "test"]
      ∧ "test" ∈ ["train", "validation", "test"])
    ∧ ([("train/train.csv", ["0,999,1,0,1,0,0,0", "1,6,0,1,0,1,0,0", "0,999,1,0,0,0,1,0"]),
        ("validation/validation.csv", ["1,3,0,1,0,0,0,1"]),
        ("test/test_y.csv", ["0"]),
        ("test/test_x.csv", ["999,1,0,1,0,0,0"])] :
          List (String × List String)).map Prod.fst =
        ["train/train.csv", "validation/validation.csv",
         "test/test_y.csv", "test/test_x.csv"] :=
  c8_writes_require_dirs defaultCategoricalFeatures samplew ["train", "validation", "test"]
    df0w _ (by with_unfolding_all rfl)

/-- C1 counterexample: the claim cuts at floor(0.7*N), but the program
computes int(0.7*N) in IEEE doubles.  On a 90-row input the derived table has
90 rows and the program's train partition has 62 rows, while floor(0.7*90)
is 63: the claim as stated is false of the code. -/
theorem c1_counterexample :
    (deriveFrame df90).map (fun df => df.rows.length) = .ok 90
    ∧ (deriveFrame df90).map (fun df => (splitFrame samplew df).1.rows.length) = .ok 62
    ∧ 7 * 90 / 10 = 63 :=
  ⟨by with_unfolding_all rfl, by with_unfolding_all rfl, by decide⟩

/-- C1 amended: the split cuts the seeded shuffle of the derived rows at the
IEEE-double-computed indices int(0.7*N) and int(0.9*N), which can differ from
the exact floors (a 90-row table cuts the train partition at 62, not 63): the
partitions have exactly those sizes, the sizes sum to N, the concatenation of
the three partitions is a permutation of the derived rows (every derived row
lands in exactly one partition), the underlying index segments are pairwise
disjoint, and N = 41188 yields 28831 / 8238 / 4119. -/
theorem c1_split_partition (sample : Nat → List Nat) (df0 df tr va te : DataFrame) (n : Nat)
    (hd : deriveFrame df0 = .ok df) (hn : n = df.rows.length)
    (hsplit : splitFrame sample df = (tr, va, te))
    (hs : (sample n).Perm (List.range n)) :
    tr.rows.length = intOfMulDouble c07 52 n
    ∧ va.rows.length = intOfMulDouble c09 53 n - intOfMulDouble c07 52 n
    ∧ te.rows.length = n - intOfMulDouble c09 53 n
    ∧ tr.rows.length + va.rows.length + te.rows.length = n
    ∧ (tr.rows ++ (va.rows ++ te.rows)).Perm df.rows
    ∧ ((sample n).take (intOfMulDouble c07 52 n)).Disjoint
        (((sample n).drop (intOfMulDouble c07 52 n)).take
          (intOfMulDouble c09 53 n - intOfMulDouble c07 52 n))
    ∧ ((sample n).take (intOfMulDouble c07 52 n)).Disjoint
        ((sample n).drop (intOfMulDouble c09 53 n))
    ∧ (((sample n).drop (intOfMulDouble c07 52 n)).take
        (intOfMulDouble c09 53 n - intOfMulDouble c07 52 n)).Disjoint
        ((sample n).drop (intOfMulDouble c09 53 n))
    ∧ (n = 41188 → tr.rows.length = 28831 ∧ va.rows.length = 8238 ∧ te.rows.length = 4119)
    ∧ (n = 90 → tr.rows.length = 62) := by
  subst hn
  have hidxlen : (sample df.rows.length).length = df.rows.length := by
    simpa using hs.length_eq
  have hSlen : ((sample df.rows.length).map (fun i => df.rows.getD i [])).length
      = df.rows.length := by
    simp [hidxlen]
  have h12 : intOfMulDouble c07 52 df.rows.length ≤ intOfMulDouble c09 53 df.rows.length :=
    cut07_le_cut09 df.rows.length
  have h2 : intOfMulDouble c09 53 df.rows.length ≤ df.rows.length := cut09_le df.rows.length
  obtain ⟨l1, l2, l3, hcat⟩ :=
    split3_props ((sample df.rows.length).map (fun i => df.rows.getD i []))
      (intOfMulDouble c07 52 df.rows.length) (intOfMulDouble c09 53 df.rows.length)
      h12 (by rw [hSlen]; exact h2)
  have etr : tr.rows = ((sample df.rows.length).map (fun i => df.rows.getD i [])).take
      (intOfMulDouble c07 52 df.rows.length) := by
    have h := congrArg (fun p => (p.1 : DataFrame).rows) hsplit
    simpa [splitFrame, applySample] using h.symm
  have eva : va.rows = (((sample df.rows.length).map (fun i => df.rows.getD i [])).drop
      (intOfMulDouble c07 52 df.rows.length)).take
      (intOfMulDouble c09 53 df.rows.length - intOfMulDouble c07 52 df.rows.length) := by
    have h := congrArg (fun p => (p.2.1 : DataFrame).rows) hsplit
    simpa [splitFrame, applySample] using h.symm
  have ete : te.rows = ((sample df.rows.length).map (fun i => df.rows.getD i [])).drop
      (intOfMulDouble c09 53 df.rows.length) := by
    have h := congrArg (fun p => (p.2.2 : DataFrame).rows) hsplit
    simpa [splitFrame, applySample] using h.symm
  have hperm : ((sample df.rows.length).map (fun i => df.rows.getD i [])).Perm df.rows := by
    have h := hs.map (fun i => df.rows.getD i [])
    rwa [map_getD_range df.rows []] at h
  obtain ⟨d1, d2, d3⟩ :=
    split3_disjoint (sample df.rows.length) (intOfMulDouble c07 52 df.rows.length)
      (intOfMulDouble c09 53 df.rows.length) h12 (by rw [hidxlen]; exact h2)
      (hs.nodup_iff.mpr (List.nodup_range _))
  refine ⟨?_, ?_, ?_, ?_, ?_, d1, d2, d3, ?_, ?_⟩
  · rw [etr, l1]
  · rw [eva, l2]
  · rw [ete, l3, hSlen]
  · rw [etr, eva, ete, l1, l2, l3, hSlen]
    omega
  · rw [etr, eva, ete, hcat]
    exact hperm
  · intro h41
    rw [etr, eva, ete, l1, l2, l3, hSlen, h41]
    refine ⟨by decide, by decide, by decide⟩
  · intro h90
    rw [etr, l1, h90]
    decide

/-- Witness for the amended C1 at the concrete fixture (five derived rows). -/
theorem c1_split_partition_witness :
    trw.rows.length = intOfMulDouble c07 52 5
    ∧ vaw.rows.length = intOfMulDouble c09 53 5 - intOfMulDouble c07 52 5
    ∧ tew.rows.length = 5 - intOfMulDouble c09 53 5
    ∧ trw.rows.length + vaw.rows.length + tew.rows.length = 5
    ∧ (trw.rows ++ (vaw.rows ++ tew.rows)).Perm dfw.rows
    ∧ ((samplew 5).take (intOfMulDouble c07 52 5)).Disjoint
        (((samplew 5).drop (intOfMulDouble c07 52 5)).take
          (intOfMulDouble c09 53 5 - intOfMulDouble c07 52 5))
    ∧ ((samplew 5).take (intOfMulDouble c07 52 5)).Disjoint
        ((samplew 5).drop (intOfMulDouble c09 53 5))
    ∧ (((samplew 5).drop (intOfMulDouble c07 52 5)).take
        (intOfMulDouble c09 53 5 - intOfMulDouble c07 52 5)).Disjoint
        ((samplew 5).drop (intOfMulDouble c09 53 5))
    ∧ (5 = 41188 → trw.rows.length = 28831 ∧ vaw.rows.length = 8238 ∧ tew.rows.length = 4119)
    ∧ (5 = 90 → trw.rows.length = 62) :=
  c1_split_partition samplew df0w dfw trw vaw tew 5 (by with_unfolding_all rfl) rfl
    (by with_unfolding_all rfl) (List.reverse_perm _)

/-- C2: in the frame produced by the indicator-derivation step,
`no_previous_contact` is 1 exactly on the rows whose `pdays` equals the
sentinel 999 (0 otherwise), and `not_working` is 1 exactly on the rows whose
`job` is student, retired or unemployed (0 otherwise). -/
theorem c2_indicator_columns (df df' : DataFrame) (pds jobs : List Value)
    (hw : Wf df)
    (h1 : "no_previous_contact" ∉ df.cols) (h2 : "not_working" ∉ df.cols)
    (hjob : "job" ∈ df.cols)
    (hp : getCol df "pdays" = .ok pds) (hj : getCol df "job" = .ok jobs)
    (hd : addIndicators df = .ok df') :
    getCol df' "no_previous_contact"
      = .ok (pds.map (fun v => Value.num (if v = .num 999 then 1 else 0)))
    ∧ getCol df' "not_working"
      = .ok (jobs.map (fun v =>
          Value.num (if v = .str "student" ∨ v = .str "retired" ∨ v = .str "unemployed"
                     then 1 else 0))) := by
  unfold addIndicators at hd
  obtain ⟨pds', hp', hd⟩ := except_bind_ok hd
  rw [hp] at hp'
  injection hp' with e
  subst e
  dsimp only at hd
  obtain ⟨jobs', hj', hd⟩ := except_bind_ok hd
  have hlenp : pds.length = df.rows.length := getCol_length hp
  have hother : getCol (setCol df "no_previous_contact" (pds.map noPrevContactVal)) "job"
      = getCol df "job" :=
    getCol_setCol_fresh_other df _ "job" _ h1 hw (by simp [hlenp]) hjob
  rw [hother, hj] at hj'
  injection hj' with e
  subst e
  have hdf' : df' = setCol (setCol df "no_previous_contact" (pds.map noPrevContactVal))
      "not_working" (jobs.map notWorkingVal) := by
    simpa [pure, Except.pure] using hd.symm
  subst hdf'
  have hwf1 : Wf (setCol df "no_previous_contact" (pds.map noPrevContactVal)) :=
    wf_setCol_fresh df _ _ h1 hw
  have hlen1 : (setCol df "no_previous_contact" (pds.map noPrevContactVal)).rows.length
      = df.rows.length :=
    rows_setCol_fresh df _ _ h1 (by simp [hlenp])
  have hcols1 : (setCol df "no_previous_contact" (pds.map noPrevContactVal)).cols
      = df.cols ++ ["no_previous_contact"] := by
    rw [setCol_fresh df _ _ h1]
  have hnw1 : "not_working" ∉ (setCol df "no_previous_contact" (pds.map noPrevContactVal)).cols := by
    rw [hcols1]
    simp only [List.mem_append, List.mem_singleton]
    rintro (hmem | heq)
    · exact h2 hmem
    · exact absurd heq (by decide)
  have hnpc1 : "no_previous_contact"
      ∈ (setCol df "no_previous_contact" (pds.map noPrevContactVal)).cols := by
    rw [hcols1]
    simp
  have hlenj : jobs.length = df.rows.length := getCol_length hj
  constructor
  · rw [getCol_setCol_fresh_other _ "not_working" "no_previous_contact" _ hnw1 hwf1
      (by simp [hlen1, hlenj]) hnpc1]
    rw [getCol_setCol_fresh df _ _ h1 hw (by simp [hlenp])]
    rfl
  · rw [getCol_setCol_fresh _ "not_working" _ hnw1 hwf1 (by simp [hlen1, hlenj])]
    simp only [Except.ok.injEq]
    exact List.map_congr_left (fun v _ => notWorkingVal_eq v)

/-- Witness for C2 at the normalized concrete fixture. -/
theorem c2_indicator_columns_witness :
    getCol df2w "no_previous_contact"
      = .ok (([Value.num 999, .num 3, .num 999, .num 6, .num 999]).map
          (fun v => Value.num (if v = .num 999 then 1 else 0)))
    ∧ getCol df2w "not_working"
      = .ok (([Value.str "admin", .str "student", .str "services", .str "retired",
               .str "admin"]).map
          (fun v =>
            Value.num (if v = .str "student" ∨ v = .str "retired" ∨ v = .str "unemployed"
                       then 1 else 0))) :=
  c2_indicator_columns (normalizeDF df0w) df2w
    [Value.num 999, .num 3, .num 999, .num 6, .num 999]
    [Value.str "admin", .str "student", .str "services", .str "retired", .str "admin"]
    (by unfold Wf; decide) (by decide) (by decide) (by decide)
    (by with_unfolding_all rfl) (by with_unfolding_all rfl) (by with_unfolding_all rfl)

/-- C4: the serialized feature layouts exclude the six pruned columns and both
label indicator columns; train and validation place y_yes first followed by
the feature columns, and every emitted CSV has exactly one line per data row
(no header line). -/
theorem c4_feature_files (df0 df : DataFrame) (sample : Nat → List Nat)
    (trOut vaOut teX : DataFrame)
    (hd : deriveFrame df0 = .ok df)
    (ht : labelFirst (splitFrame sample df).1 = .ok trOut)
    (hv : labelFirst (splitFrame sample df).2.1 = .ok vaOut)
    (hx : dropCols ["y_yes", "y_no"] (splitFrame sample df).2.2 = .ok teX) :
    trOut.cols = "y_yes" :: df.cols.filter (fun c => !(["y_yes", "y_no"].contains c))
    ∧ vaOut.cols = "y_yes" :: df.cols.filter (fun c => !(["y_yes", "y_no"].contains c))
    ∧ teX.cols = df.cols.filter (fun c => !(["y_yes", "y_no"].contains c))
    ∧ (∀ c ∈ prunedCols, c ∉ df.cols.filter (fun c => !(["y_yes", "y_no"].contains c)))
    ∧ "y_yes" ∉ df.cols.filter (fun c => !(["y_yes", "y_no"].contains c))
    ∧ "y_no" ∉ df.cols.filter (fun c => !(["y_yes", "y_no"].contains c))
    ∧ (toCsvLines trOut).length = trOut.rows.length
    ∧ (toCsvLines vaOut).length = vaOut.rows.length
    ∧ (toCsvLines teX).length = teX.rows.length := by
  obtain ⟨df2, df3, h2, h3, hgd⟩ := deriveFrame_ok hd
  have hsplitcols : (splitFrame sample df).2.2.cols = df.cols := rfl
  refine ⟨?_, ?_, ?_, ?_, ?_, ?_, ?_, ?_, ?_⟩
  · have h := labelFirst_cols ht
    exact h
  · have h := labelFirst_cols hv
    exact h
  · have h := dropCols_ok_cols hx
    exact h
  · intro c hc hmem
    have hmemdf : c ∈ df.cols := List.mem_of_mem_filter hmem
    rw [hgd] at hmemdf
    rcases getDummies_cols_mem hmemdf with h3mem | ⟨a, b, rfl⟩
    · rw [dropCols_ok_cols h3] at h3mem
      have := (List.mem_filter.mp h3mem).2
      simp only [Bool.not_eq_true', List.contains_eq_any_beq, List.any_eq_false] at this
      exact this c hc (by simp)
    · have hnu : ∀ c ∈ prunedCols, ¬ ('_' ∈ c.data) := by decide
      exact ne_dummyName_of_no_underscore (hnu _ hc) a b rfl
  · intro hmem
    have := (List.mem_filter.mp hmem).2
    simp at this
  · intro hmem
    have := (List.mem_filter.mp hmem).2
    simp at this
  · simp [toCsvLines]
  · simp [toCsvLines]
  · simp [toCsvLines]

/-- Witness for C4 at the concrete fixture. -/
theorem c4_feature_files_witness :
    trOutw.cols = "y_yes" :: dfw.cols.filter (fun c => !(["y_yes", "y_no"].contains c))
    ∧ vaOutw.cols = "y_yes" :: dfw.cols.filter (fun c => !(["y_yes", "y_no"].contains c))
    ∧ teXw.cols = dfw.cols.filter (fun c => !(["y_yes", "y_no"].contains c))
    ∧ (∀ c ∈ prunedCols, c ∉ dfw.cols.filter (fun c => !(["y_yes", "y_no"].contains c)))
    ∧ "y_yes" ∉ dfw.cols.filter (fun c => !(["y_yes", "y_no"].contains c))
    ∧ "y_no" ∉ dfw.cols.filter (fun c => !(["y_yes", "y_no"].contains c))
    ∧ (toCsvLines trOutw).length = trOutw.rows.length
    ∧ (toCsvLines vaOutw).length = vaOutw.rows.length
    ∧ (toCsvLines teXw).length = teXw.rows.length :=
  c4_feature_files df0w dfw samplew trOutw vaOutw teXw (by with_unfolding_all rfl)
    (by with_unfolding_all rfl) (by with_unfolding_all rfl) (by with_unfolding_all rfl)

/-- C6 counterexample: on the fixture, the derived test partition before the
label drop contains the y_no column, but the concatenation of test_x's
columns with test_y's y_yes column does not: the concatenation cannot
reconstruct all pre-drop columns, even modulo order. -/
theorem c6_counterexample :
    dropCols ["y_yes", "y_no"] (splitFrame samplew dfw).2.2 = .ok teXw
    ∧ getCol (splitFrame samplew dfw).2.2 "y_yes" = .ok [Value.num 0]
    ∧ "y_no" ∈ (splitFrame samplew dfw).2.2.cols
    ∧ ¬ ((teXw.cols ++ ["y_yes"]).Perm (splitFrame samplew dfw).2.2.cols) :=
  ⟨by with_unfolding_all rfl, by with_unfolding_all rfl, by decide, by decide⟩

/-- C6 amended: the concatenation of test_x's columns with test_y's single
y_yes column reconstructs the pre-drop test partition with the y_no column
removed, modulo column order: the column-name lists are permutations of each
other, and record by record the (name, value) fields are permutations. -/
theorem c6_reconstruction (df0 df teX teNo : DataFrame) (sample : Nat → List Nat)
    (yvals : List Value)
    (hd : deriveFrame df0 = .ok df)
    (hs : (sample df.rows.length).Perm (List.range df.rows.length))
    (hnd : df.cols.Nodup)
    (hy : getCol (splitFrame sample df).2.2 "y_yes" = .ok yvals)
    (hx : dropCols ["y_yes", "y_no"] (splitFrame sample df).2.2 = .ok teX)
    (hno : dropCols ["y_no"] (splitFrame sample df).2.2 = .ok teNo) :
    ((teX.cols ++ ["y_yes"]).Perm teNo.cols)
    ∧ List.Forall₂ (fun a b => ((teX.cols ++ ["y_yes"]).zip a).Perm (teNo.cols.zip b))
        ((teX.rows.zip yvals).map (fun p => p.1 ++ [p.2])) teNo.rows := by
  obtain ⟨df2, df3, -, -, hgd⟩ := deriveFrame_ok hd
  have hwdf : Wf df := by rw [hgd]; exact wf_getDummies df3
  have hwte : Wf (splitFrame sample df).2.2 := wf_splitFrame_te hs hwdf
  have hteCols : (splitFrame sample df).2.2.cols = df.cols := rfl
  have hXcols := dropCols_ok_cols hx
  have hXrows := dropCols_ok_rows hx
  have hNcols := dropCols_ok_cols hno
  have hNrows := dropCols_ok_rows hno
  rw [hteCols] at hXcols hNcols hXrows hNrows
  have hyymem : "y_yes" ∈ df.cols := dropCols_ok_mem hx "y_yes" (by simp)
  obtain ⟨iyy, hiyy, hyvals⟩ := getCol_ok hy
  have hp2 : ∀ x : String, (!(["y_yes", "y_no"].contains x))
      = ((!(["y_no"].contains x)) && !(x == "y_yes")) := by
    intro x
    by_cases h1 : x = "y_yes"
    · subst h1
      decide
    · by_cases h2 : x = "y_no"
      · subst h2
        decide
      · have b1 : (x == "y_yes") = false := beq_false_of_ne h1
        have b2 : (x == "y_no") = false := beq_false_of_ne h2
        simp only [List.contains_cons, List.contains_nil, b1, b2, Bool.or_false,
          Bool.or_self, Bool.not_false, Bool.and_true]
  have hselp : ∀ x : String, ((!(["y_no"].contains x)) && (x == "y_yes")) = (x == "y_yes") := by
    intro x
    cases hxy : x == "y_yes"
    · simp [hxy]
    · have hx' : x = "y_yes" := eq_of_beq hxy
      subst hx'
      decide
  constructor
  · rw [hXcols, hNcols]
    apply perm_insert_of_filters df.cols (fun c => !(["y_no"].contains c))
      (fun c => !(["y_yes", "y_no"].contains c)) (fun c => c == "y_yes") "y_yes"
    · intro x _
      exact hp2 x
    · rw [List.filter_congr (fun a _ => hselp a)]
      exact filter_beq_singleton hnd hyymem
  · rw [hXrows, hNrows, hyvals]
    rw [List.zip_map', List.map_map]
    rw [List.forall₂_map_left_iff, List.forall₂_map_right_iff, List.forall₂_same]
    intro r hr
    have hrlen : r.length = df.cols.length := hwte r hr
    dsimp only [Function.comp]
    rw [hXcols, hNcols]
    rw [List.zip_append (dropRow_length ["y_yes", "y_no"] df.cols r hrlen).symm]
    rw [zip_dropRow ["y_yes", "y_no"] df.cols r hrlen]
    rw [zip_dropRow ["y_no"] df.cols r hrlen]
    simp only [List.zip_cons_cons, List.zip_nil_right]
    apply perm_insert_of_filters (df.cols.zip r) (fun q => !(["y_no"].contains q.1))
      (fun q => !(["y_yes", "y_no"].contains q.1)) (fun q => q.1 == "y_yes")
      ("y_yes", r.getD iyy (.num 0))
    · intro q _
      exact hp2 q.1
    · rw [List.filter_congr (fun a _ => hselp a.1)]
      exact zip_filter_beq_eq df.cols r "y_yes" iyy hnd hrlen hiyy

/-- Witness for the amended C6 at the concrete fixture. -/
theorem c6_reconstruction_witness :
    ((teXw.cols ++ ["y_yes"]).Perm teNow.cols)
    ∧ List.Forall₂ (fun a b => ((teXw.cols ++ ["y_yes"]).zip a).Perm (teNow.cols.zip b))
        ((teXw.rows.zip [Value.num 0]).map (fun p => p.1 ++ [p.2])) teNow.rows :=
  c6_reconstruction df0w dfw teXw teNow samplew [Value.num 0] (by with_unfolding_all rfl)
    (List.reverse_perm _) (by decide) (by with_unfolding_all rfl)
    (by with_unfolding_all rfl) (by with_unfolding_all rfl)

end BankPrep
